import Mathlib

/-!
Shallow embedding of the `ModelBootstrap` class
(`src/.ipynb_checkpoints/ModelBootstrap-checkpoint.ipynb`).

The underlying calibrated classifier (`sklearn.calibration.CalibratedClassifierCV`
built from the stored template and cross-validation setting, trained by `.fit`
and queried through column 1 of `.predict_proba`) is a black box to this
repository; it is embedded as an abstract training function
`fitCC : T → Option ℤ → List Features → List ℚ → Model` where `T` is the type
of classifier templates.  A `Model` maps one sample's feature row to the
positive-class probability.

Randomness of `np.random.choice(R, size)` is embedded as an oracle stream of
natural-number draws; the `k`-th drawn index is the `k`-th oracle value reduced
`mod R`, so each draw lies in `[0, R)` and distinct draws read distinct,
independent positions of the stream.  Python float arithmetic is embedded as
exact rational arithmetic.
-/

/-- One sample's feature row. -/
abbrev Features := List ℚ

/-- A fitted calibrated classifier: feature row ↦ positive-class probability
(column 1 of `predict_proba`). -/
abbrev Model := Features → ℚ

/-- Embedding of `np.random.choice(R, size=size)`: `size` independent draws
from the oracle `stream`, each reduced into `[0, R)`. -/
def np_random_choice (R size : ℕ) (stream : ℕ → ℕ) : List ℕ :=
  (List.range size).map (fun k => stream k % R)

/-- Embedding of numpy fancy indexing `rows[idx]`: gather the listed rows.
Indices produced by `np_random_choice` are always in range, so the default
value `d` is never read on the paths the class exercises. -/
def gather {α : Type} (rows : List α) (idx : List ℕ) (d : α) : List α :=
  idx.map (fun i => rows.getD i d)

/-- Embedding of the resampling step inside `ModelBootstrap.fit`:
`b_idx = np.random.choice(X.shape[0], size=size); X[b_idx]; y[b_idx]`. -/
def resampleStep (X : List Features) (y : List ℚ) (stream : ℕ → ℕ) (size : ℕ) :
    List Features × List ℚ :=
  let b_idx := np_random_choice X.length size stream
  (gather X b_idx [], gather y b_idx 0)

/-- Error taxonomy of the class (the source raises `Warning` with a message;
the spec names the three conditions). -/
inductive MBError where
  | invalidConfiguration
  | invalidArgument
  | notFitted
deriving DecidableEq, Repr

/-- State of a `ModelBootstrap` instance over template type `T`.  The fields
mirror the object's attributes; `calibrated_estimator`, `calibration_cv` and
`boot_size` do not exist before the first `fit`, hence the `Option`s. -/
structure ModelBootstrap (T : Type) where
  estimator : T
  n_boot : ℕ
  b_estimators : List Model
  calibrated_estimator : Option Model := none
  calibration_cv : Option ℤ := none
  boot_size : Option ℕ := none

/-- Embedding of `ModelBootstrap.__init__`: rejects a negative `n_boot`
(the non-`int` branch of the source's type test is unrepresentable here). -/
def ModelBootstrap.init {T : Type} (e : T) (n_boot : ℤ) :
    Except MBError (ModelBootstrap T) :=
  if n_boot < 0 then .error .invalidConfiguration
  else .ok { estimator := e, n_boot := n_boot.toNat, b_estimators := [] }

/-- Embedding of `ModelBootstrap.fit`.  `fitCC tmpl cv X y` stands for
`CalibratedClassifierCV(base_estimator=tmpl, cv=cv).fit(X, y)`; `stream j`
is the random oracle consumed by iteration `j` of the bootstrap loop. -/
def ModelBootstrap.fit {T : Type}
    (fitCC : T → Option ℤ → List Features → List ℚ → Model)
    (st : ModelBootstrap T) (X : List Features) (y : List ℚ)
    (calibration_cv : Option ℤ) (boot_size : Option ℕ)
    (stream : ℕ → ℕ → ℕ) : ModelBootstrap T :=
  let cal := fitCC st.estimator calibration_cv X y
  let size := boot_size.getD X.length
  let members := (List.range st.n_boot).map (fun j =>
    let r := resampleStep X y (stream j) size
    fitCC st.estimator calibration_cv r.1 r.2)
  { st with
    calibration_cv := calibration_cv
    calibrated_estimator := some cal
    boot_size := some size
    b_estimators := members }

/-- Embedding of `preds = np.zeros((n_boot, S))` followed by
`preds[j] = est.predict_proba(X)[:,1]` for each member `j`: row `j` holds
member `j`'s predictions; preallocated rows beyond the member count keep
their zeros (after `fit` the member count always equals `n_boot`). -/
def predsMatrix (n_boot : ℕ) (members : List Model) (X : List Features) :
    List (List ℚ) :=
  (List.range n_boot).map (fun j =>
    (members.get? j).elim (X.map (fun _ => (0 : ℚ))) (fun m => X.map m))

/-- Column `s` of a row-major matrix (sample `s` across all bootstrap rows). -/
def column (M : List (List ℚ)) (s : ℕ) : List ℚ :=
  M.map (fun r => r.getD s 0)

/-- Ascending sort, as numpy's quantile routine performs internally. -/
def sortedVals (l : List ℚ) : List ℚ :=
  l.insertionSort (· ≤ ·)

/-- Floor of a rational, written out so that the kernel can evaluate it
(`⌊q⌋ = q.num / q.den` with Euclidean integer division). -/
def ratFloor (q : ℚ) : ℤ :=
  q.num / (q.den : ℤ)

/-- Ceiling of a rational via `⌈q⌉ = −⌊−q⌋`, kernel-evaluable. -/
def ratCeil (q : ℚ) : ℤ :=
  -ratFloor (-q)

/-- Linear interpolation of a sorted list at fractional position `h`:
`v⌊h⌋ + (h − ⌊h⌋) · (v⌈h⌉ − v⌊h⌋)`. -/
def interp (s : List ℚ) (h : ℚ) : ℚ :=
  let f : ℕ := (ratFloor h).toNat
  let c : ℕ := (ratCeil h).toNat
  s.getD f 0 + (h - (f : ℚ)) * (s.getD c 0 - s.getD f 0)

/-- Embedding of `np.quantile(a, q)` with the default linear interpolation
method: sort, take position `h = q·(n−1)`, interpolate between the
neighbouring order statistics. -/
def np_quantile (l : List ℚ) (q : ℚ) : ℚ :=
  interp (sortedVals l) (q * ((l.length : ℚ) - 1))

/-- Embedding of `ModelBootstrap.predict`.  Checks mirror the source order:
the emptiness test on `b_estimators`, then the range test on `ci`; then
`ci` is replaced by the tail mass `(1 − ci/100)/2` and the per-column
quantiles of the stacked member predictions are taken. -/
def ModelBootstrap.predict {T : Type} (st : ModelBootstrap T)
    (X : List Features) (ci : ℤ) :
    Except MBError (List ℚ × List ℚ × List ℚ) :=
  if st.b_estimators.isEmpty then .error .notFitted
  else if ci ≤ 0 ∨ 100 ≤ ci then .error .invalidArgument
  else
    let a : ℚ := (1 - (ci : ℚ) / 100) / 2
    let y_pred := X.map (fun x => (st.calibrated_estimator.getD (fun _ => 0)) x)
    let preds := predsMatrix st.n_boot st.b_estimators X
    let lower_bounds := (List.range X.length).map (fun s => np_quantile (column preds s) a)
    let upper_bounds := (List.range X.length).map (fun s => np_quantile (column preds s) (1 - a))
    .ok (y_pred, lower_bounds, upper_bounds)

/-- The `predict` method as a state transformer: same body as
`ModelBootstrap.predict`, additionally returning the object state the method
leaves behind (the source assigns only to locals, never to `self`). -/
def ModelBootstrap.predictS {T : Type} (st : ModelBootstrap T)
    (X : List Features) (ci : ℤ) :
    Except MBError ((List ℚ × List ℚ × List ℚ) × ModelBootstrap T) :=
  if st.b_estimators.isEmpty then .error .notFitted
  else if ci ≤ 0 ∨ 100 ≤ ci then .error .invalidArgument
  else
    let a : ℚ := (1 - (ci : ℚ) / 100) / 2
    let y_pred := X.map (fun x => (st.calibrated_estimator.getD (fun _ => 0)) x)
    let preds := predsMatrix st.n_boot st.b_estimators X
    let lower_bounds := (List.range X.length).map (fun s => np_quantile (column preds s) a)
    let upper_bounds := (List.range X.length).map (fun s => np_quantile (column preds s) (1 - a))
    .ok ((y_pred, lower_bounds, upper_bounds), st)

/-- The spec's Unfitted state: no point-estimate model has been stored yet
(`fit` has never completed). -/
def ModelBootstrap.Unfitted {T : Type} (st : ModelBootstrap T) : Prop :=
  st.calibrated_estimator = none

/-- Modelled from the spec's wording of the quantile method ("given sorted
values and quantile level q, interpolate between floor and ceiling ranks
weighted by fractional rank position"), for comparison with `np_quantile`. -/
def spec_linear_quantile (l : List ℚ) (q : ℚ) : ℚ :=
  let s := sortedVals l
  let h : ℚ := q * ((l.length : ℚ) - 1)
  let w : ℚ := h - ((Int.floor h).toNat : ℚ)
  (1 - w) * s.getD (Int.floor h).toNat 0 + w * s.getD (Int.ceil h).toNat 0

/-! Concrete instantiation of the black-box trainer, used to run the class on
explicit inputs.  The template type is `Unit`; the trained model ignores its
input sample and predicts 9/10 when the training set had at least two rows and
1/10 otherwise, so models fitted on the full two-row dataset and on a one-row
resample are distinguishable.  All outputs lie in [0, 1], as
`predict_proba` guarantees. -/

def fitCC0 : Unit → Option ℤ → List Features → List ℚ → Model :=
  fun _ _ X _ => fun _ => if 2 ≤ X.length then (9 : ℚ) / 10 else (1 : ℚ) / 10

/-- Two-row example dataset: features. -/
def X0 : List Features := [[0], [1]]

/-- Two-row example dataset: binary labels. -/
def y0 : List ℚ := [0, 1]

/-- Constant random oracle (every draw reads raw value 0). -/
def stream0 : ℕ → ℕ → ℕ := fun _ _ => 0

/-- Freshly constructed instance with `n_boot = 1`. -/
def st1 : ModelBootstrap Unit :=
  { estimator := (), n_boot := 1, b_estimators := [] }

/-- The `n_boot = 1` instance after `fit` with `boot_size = 1`. -/
def stFit : ModelBootstrap Unit :=
  st1.fit fitCC0 X0 y0 none (some 1) stream0

/-- Freshly constructed instance with `n_boot = 0`. -/
def stZ0 : ModelBootstrap Unit :=
  { estimator := (), n_boot := 0, b_estimators := [] }

/-- The `n_boot = 0` instance after a (successful) `fit`. -/
def stZ : ModelBootstrap Unit :=
  stZ0.fit fitCC0 X0 y0 none none stream0

/-- The `n_boot = 1` instance after `fit` with requested `boot_size = 0`. -/
def stC9 : ModelBootstrap Unit :=
  st1.fit fitCC0 X0 y0 none (some 0) stream0

/-! Helper lemmas about the quantile computation. -/

theorem ratFloor_eq (q : ℚ) : ratFloor q = Int.floor q :=
  Rat.floor_def.symm

theorem ratCeil_eq (q : ℚ) : ratCeil q = Int.ceil q := by
  rw [ratCeil, ratFloor_eq, Int.floor_neg, neg_neg]

theorem interp_floor_form (s : List ℚ) (h : ℚ) :
    interp s h =
      s.getD (Int.floor h).toNat 0 +
        (h - ((Int.floor h).toNat : ℚ)) *
          (s.getD (Int.ceil h).toNat 0 - s.getD (Int.floor h).toNat 0) := by
  simp [interp, ratFloor_eq, ratCeil_eq]

theorem sortedVals_sorted (l : List ℚ) : (sortedVals l).Sorted (· ≤ ·) :=
  List.sorted_insertionSort _ l

theorem sortedVals_perm (l : List ℚ) : (sortedVals l).Perm l :=
  List.perm_insertionSort _ l

theorem sortedVals_length (l : List ℚ) : (sortedVals l).length = l.length :=
  (sortedVals_perm l).length_eq

theorem sorted_getD_mono {s : List ℚ} (hs : s.Sorted (· ≤ ·)) {i j : ℕ}
    (hij : i ≤ j) (hj : j < s.length) : s.getD i 0 ≤ s.getD j 0 := by
  have hi : i < s.length := lt_of_le_of_lt hij hj
  rw [List.getD_eq_getElem s 0 hi, List.getD_eq_getElem s 0 hj]
  have := hs.rel_get_of_le (show (⟨i, hi⟩ : Fin s.length) ≤ ⟨j, hj⟩ from hij)
  simpa [List.get_eq_getElem] using this

theorem length_pos_of_pos_le {s : List ℚ} {h1 h2 : ℚ} (h0 : 0 ≤ h1)
    (h12 : h1 ≤ h2) (hn : h2 ≤ (s.length : ℚ) - 1) : 1 ≤ s.length := by
  by_contra hcon
  have hz : s.length = 0 := by omega
  rw [hz] at hn
  norm_num at hn
  linarith

theorem interp_ge_floor {s : List ℚ} (hs : s.Sorted (· ≤ ·)) {h : ℚ}
    (h0 : 0 ≤ h) (hn : h ≤ (s.length : ℚ) - 1) :
    s.getD (Int.floor h).toNat 0 ≤ interp s h := by
  have hlen : 1 ≤ s.length := length_pos_of_pos_le h0 le_rfl hn
  have hf0 : 0 ≤ Int.floor h := Int.floor_nonneg.mpr h0
  have hfc : Int.floor h ≤ Int.ceil h := Int.floor_le_ceil h
  have hcN : Int.ceil h ≤ (s.length : ℤ) - 1 := by
    rw [Int.ceil_le]
    push_cast
    exact hn
  have hcLt : (Int.ceil h).toNat < s.length := by omega
  have hvfc : s.getD (Int.floor h).toNat 0 ≤ s.getD (Int.ceil h).toNat 0 :=
    sorted_getD_mono hs (by omega) hcLt
  have hcast : (((Int.floor h).toNat : ℕ) : ℚ) = ((Int.floor h : ℤ) : ℚ) := by
    exact_mod_cast congrArg (Int.cast : ℤ → ℚ) (Int.toNat_of_nonneg hf0)
  have hw : 0 ≤ h - ((Int.floor h).toNat : ℚ) := by
    rw [hcast]
    exact sub_nonneg.mpr (Int.floor_le h)
  rw [interp_floor_form]
  nlinarith

theorem interp_le_ceil {s : List ℚ} (hs : s.Sorted (· ≤ ·)) {h : ℚ}
    (h0 : 0 ≤ h) (hn : h ≤ (s.length : ℚ) - 1) :
    interp s h ≤ s.getD (Int.ceil h).toNat 0 := by
  have hlen : 1 ≤ s.length := length_pos_of_pos_le h0 le_rfl hn
  have hf0 : 0 ≤ Int.floor h := Int.floor_nonneg.mpr h0
  have hfc : Int.floor h ≤ Int.ceil h := Int.floor_le_ceil h
  have hcN : Int.ceil h ≤ (s.length : ℤ) - 1 := by
    rw [Int.ceil_le]
    push_cast
    exact hn
  have hcLt : (Int.ceil h).toNat < s.length := by omega
  have hvfc : s.getD (Int.floor h).toNat 0 ≤ s.getD (Int.ceil h).toNat 0 :=
    sorted_getD_mono hs (by omega) hcLt
  have hcast : (((Int.floor h).toNat : ℕ) : ℚ) = ((Int.floor h : ℤ) : ℚ) := by
    exact_mod_cast congrArg (Int.cast : ℤ → ℚ) (Int.toNat_of_nonneg hf0)
  have hw : h - ((Int.floor h).toNat : ℚ) ≤ 1 := by
    rw [hcast]
    have := Int.lt_floor_add_one h
    linarith
  rw [interp_floor_form]
  nlinarith

theorem interp_mono {s : List ℚ} (hs : s.Sorted (· ≤ ·)) {h1 h2 : ℚ}
    (h0 : 0 ≤ h1) (h12 : h1 ≤ h2) (hn : h2 ≤ (s.length : ℚ) - 1) :
    interp s h1 ≤ interp s h2 := by
  have h0' : 0 ≤ h2 := le_trans h0 h12
  have hn1 : h1 ≤ (s.length : ℚ) - 1 := le_trans h12 hn
  have hk1 : 0 ≤ Int.floor h1 := Int.floor_nonneg.mpr h0
  have hk2 : 0 ≤ Int.floor h2 := Int.floor_nonneg.mpr h0'
  have hk12 : Int.floor h1 ≤ Int.floor h2 := Int.floor_le_floor h12
  have hc2N : Int.ceil h2 ≤ (s.length : ℤ) - 1 := by
    rw [Int.ceil_le]
    push_cast
    exact hn
  rcases lt_or_eq_of_le hk12 with hlt | heq
  · have s1 : interp s h1 ≤ s.getD (Int.ceil h1).toNat 0 := interp_le_ceil hs h0 hn1
    have s3 : s.getD (Int.floor h2).toNat 0 ≤ interp s h2 := interp_ge_floor hs h0' hn
    have hc1k2 : Int.ceil h1 ≤ Int.floor h2 :=
      le_trans (Int.ceil_le_floor_add_one h1) (by omega)
    have hfc2 : Int.floor h2 ≤ Int.ceil h2 := Int.floor_le_ceil h2
    have hk2lt : (Int.floor h2).toNat < s.length := by omega
    have s2 : s.getD (Int.ceil h1).toNat 0 ≤ s.getD (Int.floor h2).toNat 0 :=
      sorted_getD_mono hs (by omega) hk2lt
    linarith
  · by_cases hint : h1 = ((Int.floor h1 : ℤ) : ℚ)
    · have hcast : (((Int.floor h1).toNat : ℕ) : ℚ) = ((Int.floor h1 : ℤ) : ℚ) := by
        exact_mod_cast congrArg (Int.cast : ℤ → ℚ) (Int.toNat_of_nonneg hk1)
      have hstart : interp s h1 = s.getD (Int.floor h1).toNat 0 := by
        rw [interp_floor_form, hcast, ← hint]
        ring
      rw [hstart, heq]
      exact interp_ge_floor hs h0' hn
    · have hgt1 : ((Int.floor h1 : ℤ) : ℚ) < h1 :=
        lt_of_le_of_ne (Int.floor_le h1) (Ne.symm hint)
      have hgt2 : ((Int.floor h2 : ℤ) : ℚ) < h2 := by
        rw [← heq]
        exact lt_of_lt_of_le hgt1 h12
      have hc1 : Int.ceil h1 = Int.floor h1 + 1 := by
        have hub := Int.ceil_le_floor_add_one h1
        have hlb : Int.floor h1 < Int.ceil h1 := Int.lt_ceil.mpr hgt1
        omega
      have hc2 : Int.ceil h2 = Int.floor h2 + 1 := by
        have hub := Int.ceil_le_floor_add_one h2
        have hlb : Int.floor h2 < Int.ceil h2 := Int.lt_ceil.mpr hgt2
        omega
      have hBlt : (Int.floor h2 + 1).toNat < s.length := by omega
      have hAB : s.getD (Int.floor h2).toNat 0 ≤ s.getD (Int.floor h2 + 1).toNat 0 :=
        sorted_getD_mono hs (by omega) hBlt
      rw [interp_floor_form, interp_floor_form, hc1, hc2, heq]
      nlinarith [hAB, h12]

theorem np_quantile_mono {l : List ℚ} (hl : l ≠ []) {q1 q2 : ℚ}
    (h0 : 0 ≤ q1) (h12 : q1 ≤ q2) (h1 : q2 ≤ 1) :
    np_quantile l q1 ≤ np_quantile l q2 := by
  have hlen : 1 ≤ l.length := List.length_pos.mpr hl
  have hQ : (0 : ℚ) ≤ (l.length : ℚ) - 1 := by
    have h1' : (1 : ℚ) ≤ (l.length : ℚ) := by exact_mod_cast hlen
    linarith
  unfold np_quantile
  apply interp_mono (sortedVals_sorted l)
  · exact mul_nonneg h0 hQ
  · exact mul_le_mul_of_nonneg_right h12 hQ
  · rw [sortedVals_length]
    exact mul_le_of_le_one_left hQ h1

theorem np_quantile_mem_bounds {l : List ℚ} (hl : l ≠ []) {q a b : ℚ}
    (h0 : 0 ≤ q) (h1 : q ≤ 1) (hab : ∀ x ∈ l, a ≤ x ∧ x ≤ b) :
    a ≤ np_quantile l q ∧ np_quantile l q ≤ b := by
  have hlen : 1 ≤ l.length := List.length_pos.mpr hl
  have hQ : (0 : ℚ) ≤ (l.length : ℚ) - 1 := by
    have h1' : (1 : ℚ) ≤ (l.length : ℚ) := by exact_mod_cast hlen
    linarith
  have hsort := sortedVals_sorted l
  have h0' : 0 ≤ q * ((l.length : ℚ) - 1) := mul_nonneg h0 hQ
  have hn' : q * ((l.length : ℚ) - 1) ≤ ((sortedVals l).length : ℚ) - 1 := by
    rw [sortedVals_length]
    exact mul_le_of_le_one_left hQ h1
  have hf0 : 0 ≤ Int.floor (q * ((l.length : ℚ) - 1)) := Int.floor_nonneg.mpr h0'
  have hfc := Int.floor_le_ceil (q * ((l.length : ℚ) - 1))
  have hcN : Int.ceil (q * ((l.length : ℚ) - 1)) ≤ ((sortedVals l).length : ℤ) - 1 := by
    rw [Int.ceil_le]
    push_cast
    exact hn'
  have hfLt : (Int.floor (q * ((l.length : ℚ) - 1))).toNat < (sortedVals l).length := by
    omega
  have hcLt : (Int.ceil (q * ((l.length : ℚ) - 1))).toNat < (sortedVals l).length := by
    omega
  have hfmem : (sortedVals l).getD (Int.floor (q * ((l.length : ℚ) - 1))).toNat 0 ∈ l := by
    rw [List.getD_eq_getElem _ _ hfLt]
    exact (sortedVals_perm l).mem_iff.mp (List.getElem_mem hfLt)
  have hcmem : (sortedVals l).getD (Int.ceil (q * ((l.length : ℚ) - 1))).toNat 0 ∈ l := by
    rw [List.getD_eq_getElem _ _ hcLt]
    exact (sortedVals_perm l).mem_iff.mp (List.getElem_mem hcLt)
  constructor
  · have hfl := interp_ge_floor hsort h0' hn'
    have := (hab _ hfmem).1
    unfold np_quantile
    linarith
  · have hcl := interp_le_ceil hsort h0' hn'
    have := (hab _ hcmem).2
    unfold np_quantile
    linarith

theorem column_predsMatrix {n : ℕ} {members : List Model}
    (h : members.length = n) (X : List Features) (s : ℕ) :
    column (predsMatrix n members X) s =
      members.map (fun m => (X.map m).getD s 0) := by
  subst h
  unfold column predsMatrix
  rw [List.map_map]
  apply List.ext_getElem
  · simp
  · intro i h1 h2
    have hi : i < members.length := by simpa using h2
    simp [List.getElem_range, List.getElem?_eq_getElem hi]

theorem getD_map_row {X : List Features} (m : Model) {s : ℕ}
    (hs : s < X.length) : (X.map m).getD s 0 = m (X.getD s []) := by
  rw [List.getD_eq_getElem (X.map m) 0 (by simpa using hs),
    List.getD_eq_getElem X [] hs, List.getElem_map]

theorem column_predsMatrix_at {n : ℕ} {members : List Model}
    (h : members.length = n) {X : List Features} {s : ℕ} (hs : s < X.length) :
    column (predsMatrix n members X) s =
      members.map (fun m => m (X.getD s [])) := by
  rw [column_predsMatrix h X s]
  exact List.map_congr_left (fun m _ => getD_map_row m hs)

theorem predict_eq_of_valid {T : Type} (st : ModelBootstrap T)
    (X : List Features) (ci : ℤ) (hne : st.b_estimators ≠ [])
    (h0 : 0 < ci) (h1 : ci < 100) :
    st.predict X ci =
      .ok (X.map (fun x => (st.calibrated_estimator.getD (fun _ => 0)) x),
        (List.range X.length).map (fun s =>
          np_quantile (column (predsMatrix st.n_boot st.b_estimators X) s)
            ((1 - (ci : ℚ) / 100) / 2)),
        (List.range X.length).map (fun s =>
          np_quantile (column (predsMatrix st.n_boot st.b_estimators X) s)
            (1 - (1 - (ci : ℚ) / 100) / 2))) := by
  unfold ModelBootstrap.predict
  rw [if_neg (by simp [List.isEmpty_iff, hne]), if_neg (by omega)]

theorem np_quantile_singleton (x q : ℚ) : np_quantile [x] q = x := by
  have h : sortedVals [x] = [x] := rfl
  unfold np_quantile
  rw [h]
  simp [interp, ratFloor_eq, ratCeil_eq]

theorem alpha_pos {ci : ℤ} (h1 : ci < 100) : 0 < (1 - (ci : ℚ) / 100) / 2 := by
  have hc1 : (ci : ℚ) < 100 := by exact_mod_cast h1
  linarith

theorem alpha_lt_half {ci : ℤ} (h0 : 0 < ci) : (1 - (ci : ℚ) / 100) / 2 < 1 / 2 := by
  have hc0 : (0 : ℚ) < (ci : ℚ) := by exact_mod_cast h0
  linarith

theorem column_ne_nil {n : ℕ} {members : List Model} (h : members.length = n)
    (hne : members ≠ []) (X : List Features) (s : ℕ) :
    column (predsMatrix n members X) s ≠ [] := by
  rw [column_predsMatrix h X s]
  simpa using hne

theorem np_quantile_eq_spec (l : List ℚ) (q : ℚ) :
    np_quantile l q = spec_linear_quantile l q := by
  simp only [np_quantile, spec_linear_quantile, interp, ratFloor_eq, ratCeil_eq]
  ring

theorem gather_getD {α : Type} (rows : List α) (R size : ℕ) (stream : ℕ → ℕ)
    (d : α) {k : ℕ} (hk : k < size) :
    (gather rows (np_random_choice R size stream) d).getD k d =
      rows.getD (stream k % R) d := by
  unfold gather np_random_choice
  rw [List.map_map, List.getD_eq_getElem _ _ (by simpa using hk)]
  simp

theorem getD_map_range {f : ℕ → ℚ} {n i : ℕ} (hi : i < n) :
    ((List.range n).map f).getD i 0 = f i := by
  rw [List.getD_eq_getElem _ _ (by simpa using hi)]
  simp

theorem stFit_b_estimators :
    stFit.b_estimators = [fitCC0 () none [[(0 : ℚ)]] [(0 : ℚ)]] := rfl

theorem stFit_members_ne_nil : stFit.b_estimators ≠ [] := by
  rw [stFit_b_estimators]
  exact List.cons_ne_nil _ _

/-! Claim theorems. -/

/-- C2, counterexample: with `n_boot = 0`, `fit` succeeds and leaves the
bootstrap member list empty, but the subsequent `predict` does NOT succeed:
it fails with the not-fitted error, because the fitted check tests emptiness
of `b_estimators`. -/
theorem C2_counterexample :
    stZ.b_estimators = [] ∧ stZ.predict [[0]] 95 = .error .notFitted :=
  ⟨rfl, rfl⟩

/-- C2 (amended): for an estimator with `nBoot = 0`, `fit` succeeds leaving
the bootstrap member sequence empty, but every subsequent `predict` call
fails with the not-fitted error (the fitted check tests non-emptiness of the
member list, which an `nBoot = 0` fit never establishes). -/
theorem C2_fit_zero_boot_empty_members_predict_errors
    {T : Type} (fitCC : T → Option ℤ → List Features → List ℚ → Model)
    (st : ModelBootstrap T) (X : List Features) (y : List ℚ)
    (cv : Option ℤ) (bs : Option ℕ) (stream : ℕ → ℕ → ℕ)
    (Xp : List Features) (ci : ℤ) (h : st.n_boot = 0) :
    (st.fit fitCC X y cv bs stream).b_estimators = [] ∧
      (st.fit fitCC X y cv bs stream).predict Xp ci = .error .notFitted := by
  have hmem : (st.fit fitCC X y cv bs stream).b_estimators = [] := by
    simp [ModelBootstrap.fit, h]
  exact ⟨hmem, by simp [ModelBootstrap.predict, hmem]⟩

/-- C2, witness: the amended statement at the concrete `n_boot = 0`
scenario. -/
theorem C2_witness :
    stZ0.n_boot = 0 ∧
      ((stZ0.fit fitCC0 X0 y0 none none stream0).b_estimators = [] ∧
        (stZ0.fit fitCC0 X0 y0 none none stream0).predict [[0]] 95 =
          .error .notFitted) :=
  ⟨rfl, C2_fit_zero_boot_empty_members_predict_errors fitCC0 stZ0 X0 y0
    none none stream0 [[0]] 95 rfl⟩

/-- C8, counterexample: a state reached by a successful `fit` (hence not
Unfitted: the point-estimate model is stored) on which `predict`
nevertheless fails with the not-fitted error, because `n_boot = 0` left the
member list empty.  So "NotFitted exactly when Unfitted" is false. -/
theorem C8_counterexample :
    ¬ stZ.Unfitted ∧ stZ.predict [[0]] 95 = .error .notFitted := by
  refine ⟨fun h => ?_, rfl⟩
  exact Option.noConfusion h

/-- C8 (amended): `predict` fails with the not-fitted error exactly when the
bootstrap member list is empty (which holds in the Unfitted state, but also
after a fit with `nBoot = 0`); with a non-empty member list it fails with the
invalid-argument error exactly when `ci` is not strictly between 0 and 100
(in particular `ci = 100` is rejected); with a non-empty member list and a
valid `ci` it returns a result and raises no error. -/
theorem C8_predict_error_conditions {T : Type} (st : ModelBootstrap T)
    (X : List Features) (ci : ℤ) :
    (st.predict X ci = .error .notFitted ↔ st.b_estimators = []) ∧
    (st.predict X ci = .error .invalidArgument ↔
      (st.b_estimators ≠ [] ∧ (ci ≤ 0 ∨ 100 ≤ ci))) ∧
    ((∃ out, st.predict X ci = .ok out) ↔
      (st.b_estimators ≠ [] ∧ 0 < ci ∧ ci < 100)) := by
  by_cases h1 : st.b_estimators = []
  · have hE : st.b_estimators.isEmpty = true := by simp [List.isEmpty_iff, h1]
    simp [ModelBootstrap.predict, hE, h1]
  · have hE : st.b_estimators.isEmpty = false := by
      simp [List.isEmpty_eq_false, h1]
    by_cases h2 : ci ≤ 0 ∨ 100 ≤ ci
    · simp only [ModelBootstrap.predict, hE, Bool.false_eq_true, if_false,
        if_pos h2]
      refine ⟨iff_of_false (by simp) h1, iff_of_true (by trivial) ⟨h1, h2⟩,
        iff_of_false ?_ ?_⟩
      · rintro ⟨out, hout⟩
        exact absurd hout (by simp)
      · rintro ⟨-, hlo, hhi⟩
        omega
    · simp only [ModelBootstrap.predict, hE, Bool.false_eq_true, if_false,
        if_neg h2]
      refine ⟨iff_of_false (by simp) h1, iff_of_false (by simp) ?_,
        iff_of_true ⟨_, by trivial⟩ ⟨h1, by omega⟩⟩
      rintro ⟨-, hr⟩
      exact h2 hr

/-- C8, witness: on a fitted state with one bootstrap member,
`predict` with `ci = 100` fails with the invalid-argument error. -/
theorem C8_witness : stFit.predict [[0]] 100 = .error .invalidArgument :=
  (C8_predict_error_conditions stFit [[0]] 100).2.1.mpr
    ⟨stFit_members_ne_nil, by omega⟩

/-- C9, counterexample: `fit` with requested `boot_size = 0` performs no
validation: it completes normally, stores `boot_size = 0`, and the resampling
step IS performed with size 0 — the single bootstrap member is trained on the
0-row resample it returned. -/
theorem C9_counterexample :
    stC9.b_estimators =
      [fitCC0 () none (resampleStep X0 y0 (stream0 0) 0).1
        (resampleStep X0 y0 (stream0 0) 0).2] ∧
    (resampleStep X0 y0 (stream0 0) 0).1.length = 0 ∧
    stC9.boot_size = some 0 :=
  ⟨rfl, rfl, rfl⟩

/-- C9 (amended): `fit` applies no validation to the requested sample size:
with `sampleSize = 0` it proceeds, invokes the resampling step with size 0
(which yields the empty dataset), trains each of the `nBoot` members on that
empty resample, and stores the non-positive size. -/
theorem C9_fit_no_sample_size_validation {T : Type}
    (fitCC : T → Option ℤ → List Features → List ℚ → Model)
    (st : ModelBootstrap T) (X : List Features) (y : List ℚ)
    (cv : Option ℤ) (stream : ℕ → ℕ → ℕ) :
    (st.fit fitCC X y cv (some 0) stream).b_estimators =
      (List.range st.n_boot).map (fun _ => fitCC st.estimator cv [] []) ∧
    (st.fit fitCC X y cv (some 0) stream).boot_size = some 0 := by
  refine ⟨?_, rfl⟩
  show (List.range st.n_boot).map _ = _
  exact List.map_congr_left (fun j _ => rfl)

/-- C10: `predict` leaves the estimator state entirely unchanged — run as a
state transformer it returns exactly the input state alongside the value
that `predict` computes. -/
theorem C10_predict_frame {T : Type} (st : ModelBootstrap T)
    (X : List Features) (ci : ℤ) :
    st.predictS X ci = (st.predict X ci).map (fun out => (out, st)) := by
  unfold ModelBootstrap.predictS ModelBootstrap.predict
  by_cases h1 : st.b_estimators.isEmpty
  · simp [h1, Except.map]
  · by_cases h2 : ci ≤ 0 ∨ 100 ≤ ci
    · simp [h1, h2, Except.map]
    · simp [h1, h2, Except.map]

/-- C4: on a dataset with `R > 0` rows (features and labels of equal length),
the resampling step returns exactly `sampleSize` rows of features and labels
(`R` rows when the size is unspecified); the `k`-th returned row is the input
row at index `stream k % R` — the `k`-th independent oracle draw reduced
uniformly into `[0, R)` — so every returned feature row, together with its
label, exactly matches some input row. -/
theorem C4_resample_rows {X : List Features} {y : List ℚ}
    (hR : 0 < X.length) (_hy : y.length = X.length) (bs : Option ℕ)
    (stream : ℕ → ℕ) :
    (resampleStep X y stream (bs.getD X.length)).1.length = bs.getD X.length ∧
    (resampleStep X y stream (bs.getD X.length)).2.length = bs.getD X.length ∧
    (bs = none → bs.getD X.length = X.length) ∧
    (∀ k < bs.getD X.length,
      (resampleStep X y stream (bs.getD X.length)).1.getD k [] =
          X.getD (stream k % X.length) [] ∧
        (resampleStep X y stream (bs.getD X.length)).2.getD k 0 =
          y.getD (stream k % X.length) 0) ∧
    (∀ k < bs.getD X.length, ∃ i < X.length,
      (resampleStep X y stream (bs.getD X.length)).1.getD k [] = X.getD i [] ∧
        (resampleStep X y stream (bs.getD X.length)).2.getD k 0 =
          y.getD i 0) := by
  refine ⟨by simp [resampleStep, gather, np_random_choice],
    by simp [resampleStep, gather, np_random_choice],
    fun h => by rw [h]; rfl, ?_, ?_⟩
  · intro k hk
    exact ⟨gather_getD X X.length (bs.getD X.length) stream [] hk,
      by rw [show (resampleStep X y stream (bs.getD X.length)).2 =
          gather y (np_random_choice X.length (bs.getD X.length) stream) 0
          from rfl, gather_getD y X.length (bs.getD X.length) stream 0 hk]⟩
  · intro k hk
    refine ⟨stream k % X.length, Nat.mod_lt _ hR, ?_, ?_⟩
    · exact gather_getD X X.length (bs.getD X.length) stream [] hk
    · rw [show (resampleStep X y stream (bs.getD X.length)).2 =
          gather y (np_random_choice X.length (bs.getD X.length) stream) 0
          from rfl, gather_getD y X.length (bs.getD X.length) stream 0 hk]

/-- C4, witness: the resampling guarantees at the concrete two-row dataset
with an unspecified sample size. -/
theorem C4_witness :
    0 < X0.length ∧ y0.length = X0.length ∧
      ((resampleStep X0 y0 (stream0 0) ((none : Option ℕ).getD X0.length)).1.length =
          (none : Option ℕ).getD X0.length ∧
        (resampleStep X0 y0 (stream0 0) ((none : Option ℕ).getD X0.length)).2.length =
          (none : Option ℕ).getD X0.length ∧
        ((none : Option ℕ) = none → (none : Option ℕ).getD X0.length = X0.length) ∧
        (∀ k < (none : Option ℕ).getD X0.length,
          (resampleStep X0 y0 (stream0 0) ((none : Option ℕ).getD X0.length)).1.getD k [] =
              X0.getD (stream0 0 k % X0.length) [] ∧
            (resampleStep X0 y0 (stream0 0) ((none : Option ℕ).getD X0.length)).2.getD k 0 =
              y0.getD (stream0 0 k % X0.length) 0) ∧
        (∀ k < (none : Option ℕ).getD X0.length, ∃ i < X0.length,
          (resampleStep X0 y0 (stream0 0) ((none : Option ℕ).getD X0.length)).1.getD k [] =
              X0.getD i [] ∧
            (resampleStep X0 y0 (stream0 0) ((none : Option ℕ).getD X0.length)).2.getD k 0 =
              y0.getD i 0)) :=
  ⟨by decide, rfl, C4_resample_rows (by decide) rfl none (stream0 0)⟩

/-- C5: after `fit`, the estimator is in the Fitted state: it stores the
point-estimate model trained on the full dataset, and the member sequence
consists of exactly `nBoot` models, each freshly trained on its own resample
of the given dataset — the expression does not mention the previous
ensemble, so no member of a prior fit survives. -/
theorem C5_fit_replaces_ensemble {T : Type}
    (fitCC : T → Option ℤ → List Features → List ℚ → Model)
    (st : ModelBootstrap T) (X : List Features) (y : List ℚ)
    (cv : Option ℤ) (bs : Option ℕ) (stream : ℕ → ℕ → ℕ)
    (_hrows : 0 < X.length) :
    (st.fit fitCC X y cv bs stream).calibrated_estimator =
        some (fitCC st.estimator cv X y) ∧
      (st.fit fitCC X y cv bs stream).b_estimators.length = st.n_boot ∧
      (st.fit fitCC X y cv bs stream).b_estimators =
        (List.range st.n_boot).map (fun j =>
          fitCC st.estimator cv
            (resampleStep X y (stream j) (bs.getD X.length)).1
            (resampleStep X y (stream j) (bs.getD X.length)).2) :=
  ⟨rfl, by simp [ModelBootstrap.fit], rfl⟩

/-- C5, witness: the fit postcondition at the concrete scenario. -/
theorem C5_witness :
    0 < X0.length ∧
      (st1.fit fitCC0 X0 y0 none (some 1) stream0).calibrated_estimator =
          some (fitCC0 () none X0 y0) ∧
        (st1.fit fitCC0 X0 y0 none (some 1) stream0).b_estimators.length =
          st1.n_boot ∧
        (st1.fit fitCC0 X0 y0 none (some 1) stream0).b_estimators =
          (List.range st1.n_boot).map (fun j =>
            fitCC0 ()  none
              (resampleStep X0 y0 (stream0 j) ((some 1).getD X0.length)).1
              (resampleStep X0 y0 (stream0 j) ((some 1).getD X0.length)).2) :=
  ⟨by decide, C5_fit_replaces_ensemble fitCC0 st1 X0 y0 none (some 1) stream0
    (by decide)⟩

/-- C3: for any valid integer confidence level `0 < ci < 100` on a fitted
estimator, `predict` converts `ci` to the tail mass `α = (1 − ci/100)/2` and
returns, per sample column, the empirical `α`-quantile as the lower bound and
the `(1 − α)`-quantile as the upper bound of the member probabilities,
computed by linear interpolation between order statistics (the spec-side
formula `(1 − w)·v⌊h⌋ + w·v⌈h⌉` with fractional rank weight `w`). -/
theorem C3_predict_tail_mass_linear_quantiles {T : Type}
    (st : ModelBootstrap T) (X : List Features) (ci : ℤ)
    (hne : st.b_estimators ≠ [])
    (hlen : st.b_estimators.length = st.n_boot)
    (h0 : 0 < ci) (h1 : ci < 100) :
    st.predict X ci = .ok
      (X.map (fun x => (st.calibrated_estimator.getD (fun _ => 0)) x),
       (List.range X.length).map (fun s =>
         spec_linear_quantile (st.b_estimators.map (fun m => m (X.getD s [])))
           ((1 - (ci : ℚ) / 100) / 2)),
       (List.range X.length).map (fun s =>
         spec_linear_quantile (st.b_estimators.map (fun m => m (X.getD s [])))
           (1 - (1 - (ci : ℚ) / 100) / 2))) := by
  have hlow : ∀ s ∈ List.range X.length,
      np_quantile (column (predsMatrix st.n_boot st.b_estimators X) s)
          ((1 - (ci : ℚ) / 100) / 2) =
        spec_linear_quantile (st.b_estimators.map (fun m => m (X.getD s [])))
          ((1 - (ci : ℚ) / 100) / 2) := by
    intro s hs
    rw [column_predsMatrix_at hlen (List.mem_range.mp hs), np_quantile_eq_spec]
  have hup : ∀ s ∈ List.range X.length,
      np_quantile (column (predsMatrix st.n_boot st.b_estimators X) s)
          (1 - (1 - (ci : ℚ) / 100) / 2) =
        spec_linear_quantile (st.b_estimators.map (fun m => m (X.getD s [])))
          (1 - (1 - (ci : ℚ) / 100) / 2) := by
    intro s hs
    rw [column_predsMatrix_at hlen (List.mem_range.mp hs), np_quantile_eq_spec]
  rw [predict_eq_of_valid st X ci hne h0 h1, List.map_congr_left hlow,
    List.map_congr_left hup]

/-- C3, witness: the quantile characterisation at the concrete fitted
scenario with `ci = 95`. -/
theorem C3_witness :
    stFit.predict [[0]] 95 = .ok
      (([[0]] : List Features).map
         (fun x => (stFit.calibrated_estimator.getD (fun _ => 0)) x),
       (List.range ([[0]] : List Features).length).map (fun s =>
         spec_linear_quantile
           (stFit.b_estimators.map (fun m => m (([[0]] : List Features).getD s [])))
           ((1 - ((95 : ℤ) : ℚ) / 100) / 2)),
       (List.range ([[0]] : List Features).length).map (fun s =>
         spec_linear_quantile
           (stFit.b_estimators.map (fun m => m (([[0]] : List Features).getD s [])))
           (1 - (1 - ((95 : ℤ) : ℚ) / 100) / 2))) :=
  C3_predict_tail_mass_linear_quantiles stFit [[0]] 95 stFit_members_ne_nil
    rfl (by decide) (by decide)

/-- C7: on a fitted estimator (member count = `nBoot`, at least one member)
and any integer confidence level in `{1, …, 99}`, `predict` succeeds and
returns `lower[i] ≤ upper[i]` for every sample, since the tail mass satisfies
`0 < α < 1/2`, so the `α`-quantile of each column is at most its
`(1 − α)`-quantile. -/
theorem C7_lower_le_upper {T : Type} (st : ModelBootstrap T)
    (X : List Features) (ci : ℤ) (hne : st.b_estimators ≠ [])
    (hlen : st.b_estimators.length = st.n_boot)
    (h0 : 1 ≤ ci) (h1 : ci ≤ 99) :
    ∃ p lo hi, st.predict X ci = .ok (p, lo, hi) ∧
      ∀ i, lo.getD i 0 ≤ hi.getD i 0 := by
  have h0' : 0 < ci := by omega
  have h1' : ci < 100 := by omega
  refine ⟨_, _, _, predict_eq_of_valid st X ci hne h0' h1', ?_⟩
  intro i
  by_cases hi : i < X.length
  · rw [List.getD_eq_getElem _ _ (by simpa using hi),
      List.getD_eq_getElem _ _ (by simpa using hi)]
    simp only [List.getElem_map, List.getElem_range]
    have ha := alpha_pos h1'
    have hb := alpha_lt_half h0'
    exact np_quantile_mono (column_ne_nil hlen hne X _) (le_of_lt ha)
      (by linarith) (by linarith)
  · rw [List.getD_eq_default _ _ (by simpa using not_lt.mp hi),
      List.getD_eq_default _ _ (by simpa using not_lt.mp hi)]

/-- C7, witness: the lower-bounds-below-upper-bounds guarantee at the
concrete fitted scenario with `ci = 95`. -/
theorem C7_witness :
    ∃ p lo hi, stFit.predict [[0]] 95 = .ok (p, lo, hi) ∧
      ∀ i, lo.getD i 0 ≤ hi.getD i 0 :=
  C7_lower_le_upper stFit [[0]] 95 stFit_members_ne_nil rfl (by decide)
    (by decide)

/-- C6: for a fixed fitted ensemble and fixed inputs, a higher valid
confidence level never narrows the interval: with `0 < c1 < c2 < 100`,
`predict` succeeds at both levels with the same point vector, and for every
sample the interval width at `c2` is at least the width at `c1`. -/
theorem C6_interval_width_monotone {T : Type} (st : ModelBootstrap T)
    (X : List Features) (c1 c2 : ℤ) (hne : st.b_estimators ≠ [])
    (hlen : st.b_estimators.length = st.n_boot)
    (h0 : 0 < c1) (h12 : c1 < c2) (h2 : c2 < 100) :
    ∃ p l1 u1 l2 u2,
      st.predict X c1 = .ok (p, l1, u1) ∧
      st.predict X c2 = .ok (p, l2, u2) ∧
      ∀ i, u1.getD i 0 - l1.getD i 0 ≤ u2.getD i 0 - l2.getD i 0 := by
  refine ⟨_, _, _, _, _, predict_eq_of_valid st X c1 hne h0 (by omega),
    predict_eq_of_valid st X c2 hne (by omega) h2, ?_⟩
  intro i
  by_cases hi : i < X.length
  · rw [List.getD_eq_getElem _ _ (by simpa using hi),
      List.getD_eq_getElem _ _ (by simpa using hi),
      List.getD_eq_getElem _ _ (by simpa using hi),
      List.getD_eq_getElem _ _ (by simpa using hi)]
    simp only [List.getElem_map, List.getElem_range]
    have hcol := column_ne_nil hlen hne X i
    have ha1 := alpha_pos (show c1 < 100 by omega)
    have ha2 := alpha_pos h2
    have hb1 := alpha_lt_half h0
    have hb2 := alpha_lt_half (show 0 < c2 by omega)
    have hc12 : (c1 : ℚ) < (c2 : ℚ) := by exact_mod_cast h12
    have h21 : (1 - (c2 : ℚ) / 100) / 2 < (1 - (c1 : ℚ) / 100) / 2 := by
      linarith
    have m1 : np_quantile
          (column (predsMatrix st.n_boot st.b_estimators X) i) ((1 - (c2 : ℚ) / 100) / 2) ≤
        np_quantile
          (column (predsMatrix st.n_boot st.b_estimators X) i) ((1 - (c1 : ℚ) / 100) / 2) :=
      np_quantile_mono hcol (le_of_lt ha2) (le_of_lt h21) (by linarith)
    have m2 : np_quantile
          (column (predsMatrix st.n_boot st.b_estimators X) i) (1 - (1 - (c1 : ℚ) / 100) / 2) ≤
        np_quantile
          (column (predsMatrix st.n_boot st.b_estimators X) i) (1 - (1 - (c2 : ℚ) / 100) / 2) :=
      np_quantile_mono hcol (by linarith) (by linarith) (by linarith)
    linarith
  · rw [List.getD_eq_default _ _ (by simpa using not_lt.mp hi),
      List.getD_eq_default _ _ (by simpa using not_lt.mp hi),
      List.getD_eq_default _ _ (by simpa using not_lt.mp hi),
      List.getD_eq_default _ _ (by simpa using not_lt.mp hi)]

/-- C6, witness: widening at the concrete fitted scenario for levels
`80 < 95`. -/
theorem C6_witness :
    ∃ p l1 u1 l2 u2,
      stFit.predict [[0]] 80 = .ok (p, l1, u1) ∧
      stFit.predict [[0]] 95 = .ok (p, l2, u2) ∧
      ∀ i, u1.getD i 0 - l1.getD i 0 ≤ u2.getD i 0 - l2.getD i 0 :=
  C6_interval_width_monotone stFit [[0]] 80 95 stFit_members_ne_nil rfl
    (by decide) (by decide) (by decide)

/-- C1, counterexample: a fitted estimator (one bootstrap member, valid
calibrated models with outputs in [0,1]) for which `predict` returns a point
probability of 9/10 but upper bound 1/10, violating
`lower[i] ≤ point[i] ≤ upper[i]`: the bounds are quantiles of the members'
outputs only and do not bracket the full-data model's output. -/
theorem C1_counterexample :
    stFit.predict [[0]] 95 = .ok ([9 / 10], [1 / 10], [1 / 10]) ∧
      ¬ ((9 : ℚ) / 10 ≤ 1 / 10) := by
  constructor
  · have h : stFit.predict [[0]] 95 = .ok ([(9 : ℚ) / 10],
        [np_quantile [(1 : ℚ) / 10] ((1 - ((95 : ℤ) : ℚ) / 100) / 2)],
        [np_quantile [(1 : ℚ) / 10] (1 - (1 - ((95 : ℤ) : ℚ) / 100) / 2)]) :=
      rfl
    rw [h, np_quantile_singleton, np_quantile_singleton]
  · norm_num

/-- C1 (amended): on a fitted estimator whose calibrated models output
probabilities in [0,1] and any valid confidence level, `predict` returns
three vectors of the input length with every value in [0,1] and
`lower[i] ≤ upper[i]` for every sample; the point probability need not lie
between the bounds. -/
theorem C1_triple_in_unit_interval {T : Type} (st : ModelBootstrap T)
    (X : List Features) (ci : ℤ) (hne : st.b_estimators ≠ [])
    (hlen : st.b_estimators.length = st.n_boot)
    (h0 : 0 < ci) (h1 : ci < 100)
    (hpoint : ∀ x, 0 ≤ (st.calibrated_estimator.getD (fun _ => 0)) x ∧
      (st.calibrated_estimator.getD (fun _ => 0)) x ≤ 1)
    (hmem : ∀ m ∈ st.b_estimators, ∀ x, 0 ≤ m x ∧ m x ≤ 1) :
    ∃ p lo hi, st.predict X ci = .ok (p, lo, hi) ∧
      p.length = X.length ∧ lo.length = X.length ∧ hi.length = X.length ∧
      ∀ i < X.length,
        0 ≤ p.getD i 0 ∧ p.getD i 0 ≤ 1 ∧
        0 ≤ lo.getD i 0 ∧ lo.getD i 0 ≤ hi.getD i 0 ∧ hi.getD i 0 ≤ 1 := by
  refine ⟨_, _, _, predict_eq_of_valid st X ci hne h0 h1, by simp, by simp,
    by simp, ?_⟩
  intro i hi
  have ha := alpha_pos h1
  have hb := alpha_lt_half h0
  have hcolumn : ∀ x ∈ column (predsMatrix st.n_boot st.b_estimators X) i,
      0 ≤ x ∧ x ≤ 1 := by
    intro x hx
    rw [column_predsMatrix_at hlen hi] at hx
    obtain ⟨m, hm, hmx⟩ := List.mem_map.mp hx
    exact hmx ▸ hmem m hm _
  have hcol := column_ne_nil hlen hne X i
  have hboundsLo := np_quantile_mem_bounds hcol (le_of_lt ha)
    (by linarith) hcolumn
  have hboundsHi := np_quantile_mem_bounds hcol
    (show (0 : ℚ) ≤ 1 - (1 - (ci : ℚ) / 100) / 2 by linarith)
    (by linarith) hcolumn
  have hLoHi := np_quantile_mono hcol (le_of_lt ha)
    (show (1 - (ci : ℚ) / 100) / 2 ≤ 1 - (1 - (ci : ℚ) / 100) / 2 by linarith)
    (by linarith)
  rw [getD_map_row _ hi, getD_map_range hi, getD_map_range hi]
  exact ⟨(hpoint _).1, (hpoint _).2, hboundsLo.1, hLoHi, hboundsHi.2⟩

/-- C1, witness: the amended triple property at the concrete fitted
scenario with `ci = 95`. -/
theorem C1_witness :
    ∃ p lo hi, stFit.predict [[0]] 95 = .ok (p, lo, hi) ∧
      p.length = ([[0]] : List Features).length ∧
      lo.length = ([[0]] : List Features).length ∧
      hi.length = ([[0]] : List Features).length ∧
      ∀ i < ([[0]] : List Features).length,
        0 ≤ p.getD i 0 ∧ p.getD i 0 ≤ 1 ∧
        0 ≤ lo.getD i 0 ∧ lo.getD i 0 ≤ hi.getD i 0 ∧ hi.getD i 0 ≤ 1 :=
  C1_triple_in_unit_interval stFit [[0]] 95 stFit_members_ne_nil rfl
    (by decide) (by decide)
    (by
      intro x
      show (0 : ℚ) ≤ 9 / 10 ∧ (9 : ℚ) / 10 ≤ 1
      norm_num)
    (by
      intro m hm x
      rw [stFit_b_estimators, List.mem_singleton] at hm
      subst hm
      show (0 : ℚ) ≤ 1 / 10 ∧ (1 : ℚ) / 10 ≤ 1
      norm_num)
